import Mathlib

/-!
Verification of the personalization and scheduling subsystem of the
daily-facts backend.  The definitions below are a shallow embedding of
the JavaScript source: `PersonalizationService` (profile scoring,
candidate diversification, fallback selection, learning-pattern
analysis), `SchedulerService` (per-user daily distribution and its
two-tier fact query) and the notification module (`sendDailyFactNotification`,
`retryFailedNotifications`).  Numbers are modelled as `ℚ` where the code
computes with JavaScript numbers, and as `Nat`/`Int` where the code uses
integral counters and timestamps.
-/

namespace DYK

/-- Difficulty enum, ordinal EASY < MEDIUM < HARD < EXPERT
(the source's `difficultyOrder = ['EASY','MEDIUM','HARD','EXPERT']`). -/
inductive Difficulty where
  | easy
  | medium
  | hard
  | expert
deriving DecidableEq, Repr, Inhabited

/-- Index of a difficulty in `difficultyOrder` (`Array.indexOf`). -/
def Difficulty.idx : Difficulty → Int
  | .easy => 0
  | .medium => 1
  | .hard => 2
  | .expert => 3

/-- A row of the `fact` table, restricted to the fields the core reads.
`ageInDays` stands for `(Date.now() − createdAt) / (24*60*60*1000)` as used
by `calculateFreshnessScore`; `published` stands for `publishedAt ≤ now`. -/
structure Fact where
  id : Nat
  categoryId : Nat
  difficulty : Difficulty
  tags : List String
  ageInDays : ℚ
  createdAt : Int
  viewCount : Nat
  likeCount : Nat
  shareCount : Nat
  isFeatured : Bool
  isApproved : Bool
  isActive : Bool
  published : Bool
deriving DecidableEq, Repr, Inhabited

/-- Eligibility filter used by every fact query of the core:
`isApproved: true, isActive: true, publishedAt: { lte: new Date() }`. -/
def eligibleFact (f : Fact) : Bool :=
  f.isApproved && f.isActive && f.published

/-- The user profile assembled by `getUserProfile`, restricted to the fields
`calculateFactScore` reads.  `categoryEngagement c` models
`categoryPreferences[c]?.engagement || 0` (default `0` when untracked), and
`preferredTags` models `learningPatterns.preferredTags`. -/
structure Profile where
  preferredCategories : List Nat
  categoryEngagement : Nat → ℚ
  difficultyLevel : Difficulty
  preferredTags : List String
  personalityScore : ℚ

/-- Embeds `calculateDifficultyMatch(factDifficulty, userProfile)`. -/
def calculateDifficultyMatch (factDifficulty : Difficulty) (p : Profile) : ℚ :=
  let factLevel := factDifficulty.idx
  let userLevel := p.difficultyLevel.idx
  if factLevel = userLevel then 1
  else if (factLevel - userLevel).natAbs = 1 then 0.7
  else if (factLevel - userLevel).natAbs = 2 then 0.4
  else 0.1

/-- Embeds `calculateTagScore(factTags, preferredTags)`. -/
def calculateTagScore (factTags preferredTags : List String) : ℚ :=
  if factTags = [] ∨ preferredTags = [] then 0.5
  else
    let matchCount := (factTags.filter (fun t => preferredTags.contains t)).length
    (matchCount : ℚ) / (max factTags.length preferredTags.length : ℚ)

/-- Embeds `calculatePopularityScore(fact)`. -/
def calculatePopularityScore (f : Fact) : ℚ :=
  let totalInteractions : ℚ := (f.viewCount : ℚ) + (f.likeCount : ℚ) * 2 + (f.shareCount : ℚ) * 3
  min 1 (totalInteractions / 100)

/-- Embeds `calculateFreshnessScore(createdAt)`; the age in days is carried
on the fact record. -/
def calculateFreshnessScore (f : Fact) : ℚ :=
  max 0 (1 - f.ageInDays / 365)

/-- Embeds `calculatePersonalityMatch(fact, personalityScore)`. -/
def calculatePersonalityMatch (personalityScore : ℚ) : ℚ :=
  personalityScore * 0.5 + 0.5

/-- Embeds `calculateFactScore(fact, userProfile)`: six weighted factors,
then `Math.min(1, Math.max(0, score))`. -/
def calculateFactScore (f : Fact) (p : Profile) : ℚ :=
  let categoryPart : ℚ :=
    if p.preferredCategories.contains f.categoryId then
      0.4 * (0.5 + p.categoryEngagement f.categoryId * 0.5)
    else
      0.4 * 0.1
  let score :=
    categoryPart
    + 0.25 * calculateDifficultyMatch f.difficulty p
    + 0.15 * calculateTagScore f.tags p.preferredTags
    + 0.1 * calculatePopularityScore f
    + 0.05 * calculateFreshnessScore f
    + 0.05 * calculatePersonalityMatch p.personalityScore
  min 1 (max 0 score)

/-- Per-category admission cap of `addDiversityToSelection`:
`Math.max(1, Math.floor(limit / 3))`. -/
def categoryCap (limit : Nat) : Nat := max 1 (limit / 3)

/-- Per-difficulty admission cap of `addDiversityToSelection`:
`Math.max(2, Math.floor(limit / 2.5))`; for a natural `limit` this floor
equals `(2 * limit) / 5` in truncated natural division. -/
def difficultyCap (limit : Nat) : Nat := max 2 ((2 * limit) / 5)

/-- Value of the `categoryCount` map for category `c`: the number of
already-selected facts whose `categoryId` is `c`. -/
def countCategory (sel : List Fact) (c : Nat) : Nat :=
  (sel.filter (fun g => g.categoryId == c)).length

/-- Value of the `difficultyCount` map for difficulty `d`. -/
def countDifficulty (sel : List Fact) (d : Difficulty) : Nat :=
  (sel.filter (fun g => g.difficulty == d)).length

/-- The greedy admission loop of `addDiversityToSelection`: walk the sorted
candidates, skipping a fact whose category (resp. difficulty) has already
been admitted `categoryCap` (resp. `difficultyCap`) times, stopping once
`limit` facts are admitted.  `sel` is the `selected` accumulator. -/
def diversityLoop (limit : Nat) : List Fact → List Fact → List Fact
  | sel, [] => sel
  | sel, f :: rest =>
    if limit ≤ sel.length then sel
    else if categoryCap limit ≤ countCategory sel f.categoryId then
      diversityLoop limit sel rest
    else if difficultyCap limit ≤ countDifficulty sel f.difficulty then
      diversityLoop limit sel rest
    else
      diversityLoop limit (sel ++ [f]) rest

/-- The backfill loop of `addDiversityToSelection` (`// Fill remaining spots
if needed`): append candidates whose `id` is not yet selected, ignoring the
caps, until `limit` is reached.  The source repeats its inner `for` pass in a
`while`; when candidate ids are distinct (database primary keys) a single
pass already reaches the loop's exit condition, so one pass is embedded. -/
def backfillLoop (limit : Nat) : List Fact → List Fact → List Fact
  | sel, [] => sel
  | sel, f :: rest =>
    if limit ≤ sel.length then sel
    else if sel.any (fun g => g.id == f.id) then backfillLoop limit sel rest
    else backfillLoop limit (sel ++ [f]) rest

/-- Embeds `addDiversityToSelection(facts, limit)`: short candidate lists are
returned unchanged (`if (facts.length <= limit) return facts`), otherwise the
greedy capped admission runs, followed by backfill. -/
def addDiversityToSelection (facts : List Fact) (limit : Nat) : List Fact :=
  if facts.length ≤ limit then facts
  else backfillLoop limit (diversityLoop limit [] facts) facts

/-- Holds when `addDiversityToSelection` actually had to backfill past the
admission caps to reach `limit` items: the loops run only on candidate lists
longer than `limit`, and backfill adds items only when the greedy pass
admitted fewer than `limit`. -/
def backfillUsed (facts : List Fact) (limit : Nat) : Bool :=
  decide (limit < facts.length) && decide ((diversityLoop limit [] facts).length < limit)

/-- Six facts sharing one category (distinct ids), used to exercise the
uncapped early-return branch of `addDiversityToSelection`. -/
def sameCategoryFacts : List Fact :=
  [1, 2, 3, 4, 5, 6].map fun i =>
    { id := i, categoryId := 0, difficulty := .medium, tags := [],
      ageInDays := 0, createdAt := 0, viewCount := 0, likeCount := 0,
      shareCount := 0, isFeatured := false, isApproved := true,
      isActive := true, published := true }

/-- C2: for every content item and every (non-null) user profile, the scoring
function `calculateFactScore` returns a value in the closed interval
`[0, 1]` — the weighted six-factor sum is clamped to `[0, 1]`. -/
theorem calculateFactScore_mem_unit_interval (f : Fact) (p : Profile) :
    0 ≤ calculateFactScore f p ∧ calculateFactScore f p ≤ 1 := by
  unfold calculateFactScore
  refine ⟨le_min (by norm_num) (le_max_left _ _), min_le_left _ _⟩

theorem countCategory_append (sel : List Fact) (f : Fact) (c : Nat) :
    countCategory (sel ++ [f]) c =
      countCategory sel c + if f.categoryId = c then 1 else 0 := by
  by_cases h : f.categoryId = c <;>
    simp [countCategory, List.filter_append, h]

theorem diversityLoop_category_invariant (limit : Nat) :
    ∀ (l sel : List Fact), (∀ c, countCategory sel c ≤ categoryCap limit) →
      ∀ c, countCategory (diversityLoop limit sel l) c ≤ categoryCap limit := by
  intro l
  induction l with
  | nil => intro sel h c; simpa [diversityLoop] using h c
  | cons f rest ih =>
    intro sel h c
    by_cases h1 : limit ≤ sel.length
    · simpa [diversityLoop, h1] using h c
    · by_cases h2 : categoryCap limit ≤ countCategory sel f.categoryId
      · simpa [diversityLoop, h1, h2] using ih sel h c
      · by_cases h3 : difficultyCap limit ≤ countDifficulty sel f.difficulty
        · simpa [diversityLoop, h1, h2, h3] using ih sel h c
        · have hstep : ∀ c2, countCategory (sel ++ [f]) c2 ≤ categoryCap limit := by
            intro c2
            rw [countCategory_append]
            by_cases hc : f.categoryId = c2
            · subst hc
              have hlt : countCategory sel f.categoryId < categoryCap limit :=
                Nat.lt_of_not_le h2
              simp only [eq_self_iff_true, if_true]
              omega
            · simpa [hc] using h c2
          simpa [diversityLoop, h1, h2, h3] using ih (sel ++ [f]) hstep c

theorem backfillLoop_of_full (limit : Nat) :
    ∀ (l sel : List Fact), limit ≤ sel.length → backfillLoop limit sel l = sel := by
  intro l
  induction l with
  | nil => intro sel _; rfl
  | cons f rest _ => intro sel h; simp [backfillLoop, h]

/-- C3 counterexample: with `limit = 6` and six same-category candidates,
`addDiversityToSelection` takes its early-return branch, so its output
contains one category six times — more than `max(1, floor(6/3)) = 2` —
even though backfill was never required. -/
theorem addDiversityToSelection_cap_counterexample :
    backfillUsed sameCategoryFacts 6 = false
    ∧ countCategory (addDiversityToSelection sameCategoryFacts 6) 0 = 6
    ∧ ¬ (6 ≤ max 1 (6 / 3)) := by decide

/-- C3 (amended): for every candidate list strictly longer than `limit` and
every `limit ≥ 6`, when the greedy pass admitted a full `limit` items (so no
backfill was required), no single category appears in the output of
`addDiversityToSelection` more than `max(1, floor(limit/3))` times.  (The
claim as frozen also covered candidate lists of length ≤ `limit`, where the
source returns the list unchanged without applying any cap.) -/
theorem addDiversityToSelection_category_cap (facts : List Fact) (limit c : Nat)
    (hlimit : 6 ≤ limit) (hlen : limit < facts.length)
    (hfull : (diversityLoop limit [] facts).length = limit) :
    countCategory (addDiversityToSelection facts limit) c ≤ max 1 (limit / 3) := by
  have hnb : ¬ (facts.length ≤ limit) := by omega
  have hcap : ∀ c2, countCategory ([] : List Fact) c2 ≤ categoryCap limit := by
    intro c2; simp [countCategory, categoryCap]
  have hinv := diversityLoop_category_invariant limit facts [] hcap c
  rw [addDiversityToSelection, if_neg hnb,
    backfillLoop_of_full limit facts _ (le_of_eq hfull.symm)]
  simpa [categoryCap] using hinv

/-- Seven facts with pairwise distinct categories and paired difficulties:
the greedy pass admits the first six, exercising the no-backfill branch. -/
def distinctCategoryFacts : List Fact :=
  [(1, 1, Difficulty.easy), (2, 2, Difficulty.easy), (3, 3, Difficulty.medium),
   (4, 4, Difficulty.medium), (5, 5, Difficulty.hard), (6, 6, Difficulty.hard),
   (7, 7, Difficulty.expert)].map fun t =>
    { id := t.1, categoryId := t.2.1, difficulty := t.2.2, tags := [],
      ageInDays := 0, createdAt := 0, viewCount := 0, likeCount := 0,
      shareCount := 0, isFeatured := false, isApproved := true,
      isActive := true, published := true }

theorem addDiversityToSelection_category_cap_witness :
    countCategory (addDiversityToSelection distinctCategoryFacts 6) 0 ≤ max 1 (6 / 3) :=
  addDiversityToSelection_category_cap distinctCategoryFacts 6 0
    (by decide) (by decide) (by decide)

/-- C9: whenever the candidate list has at most `limit` elements,
`addDiversityToSelection` is the identity — the source returns the input list
unchanged before either admission cap is consulted. -/
theorem addDiversityToSelection_short_id (facts : List Fact) (limit : Nat)
    (h : facts.length ≤ limit) : addDiversityToSelection facts limit = facts := by
  simp [addDiversityToSelection, h]

theorem addDiversityToSelection_short_id_witness :
    addDiversityToSelection sameCategoryFacts 10 = sameCategoryFacts :=
  addDiversityToSelection_short_id sameCategoryFacts 10 (by decide)

/-- A `userFact` row joined with its fact, as returned by the `recentViews`
query of `getUserLearningPatterns`: the view timestamp (milliseconds) and the
joined fact's `categoryId`, the fields the analyzers under scrutiny read. -/
structure RecentView where
  viewedAt : Int
  categoryId : Nat
deriving DecidableEq, Repr

/-- Embeds `analyzeTopicDiversity(recentViews)`: `0` on an empty history,
otherwise the number of distinct categories (`new Set(...).size`) divided by
`Math.min(recentViews.length, 8)`. -/
def analyzeTopicDiversity (recentViews : List RecentView) : ℚ :=
  if recentViews = [] then 0
  else
    let uniqueCategories := (recentViews.map fun v => v.categoryId).dedup.length
    (uniqueCategories : ℚ) / (min recentViews.length 8 : ℚ)

/-- Nine views across nine distinct categories. -/
def nineCategoryViews : List RecentView :=
  (List.range 9).map fun i => { viewedAt := 0, categoryId := i }

/-- C7 counterexample: nine views across nine distinct categories give topic
diversity `9/8 > 1` — the source divides by `min(length, 8)` without applying
any cap at `1`. -/
theorem analyzeTopicDiversity_counterexample :
    analyzeTopicDiversity nineCategoryViews = 9 / 8
    ∧ ¬ (analyzeTopicDiversity nineCategoryViews ≤ 1) := by
  have h1 : (nineCategoryViews.map fun v => v.categoryId).dedup.length = 9 := by decide
  have h2 : nineCategoryViews.length = 9 := by decide
  have h3 : ¬ (nineCategoryViews = []) := by decide
  simp only [analyzeTopicDiversity, if_neg h3, h1, h2]
  norm_num

/-- C7 (amended): for every non-empty recent-view history, the topic
diversity value equals (number of distinct categories touched) ÷
min(number of items viewed, 8); it does not exceed `1` whenever at most
eight distinct categories were touched, but the source applies no cap, so
with nine or more distinct categories the value exceeds `1`. -/
theorem analyzeTopicDiversity_eq_and_bounded (recentViews : List RecentView)
    (hne : recentViews ≠ [])
    (hle : (recentViews.map fun v => v.categoryId).dedup.length ≤ 8) :
    analyzeTopicDiversity recentViews =
      (((recentViews.map fun v => v.categoryId).dedup.length : ℚ))
        / (min recentViews.length 8 : ℚ)
    ∧ analyzeTopicDiversity recentViews ≤ 1 := by
  have hud : (recentViews.map fun v => v.categoryId).dedup.length ≤ recentViews.length := by
    simpa using (List.dedup_sublist (recentViews.map fun v => v.categoryId)).length_le
  have hlenpos : 0 < recentViews.length := List.length_pos.mpr hne
  have hum : (recentViews.map fun v => v.categoryId).dedup.length ≤ min recentViews.length 8 :=
    le_min hud hle
  have hmpos : 0 < min recentViews.length 8 := by omega
  constructor
  · simp [analyzeTopicDiversity, hne]
  · rw [analyzeTopicDiversity, if_neg hne]
    rw [div_le_one (by exact_mod_cast hmpos)]
    exact_mod_cast hum

/-- A single view, exercising the bounded branch of topic diversity. -/
def singleView : List RecentView := [{ viewedAt := 0, categoryId := 0 }]

theorem analyzeTopicDiversity_eq_and_bounded_witness :
    analyzeTopicDiversity singleView =
      (((singleView.map fun v => v.categoryId).dedup.length : ℚ))
        / (min singleView.length 8 : ℚ)
    ∧ analyzeTopicDiversity singleView ≤ 1 :=
  analyzeTopicDiversity_eq_and_bounded singleView (by decide) (by decide)

/-- Embeds `calculateConsistencyScore(recentViews)`.  Timestamps are sorted
ascending (`viewDates.sort()`; for the equal-width millisecond timestamps the
code sorts, JavaScript's default lexicographic order coincides with numeric
order), the span is last minus first, and the result is the deviation-based
score floored at `0`. -/
def calculateConsistencyScore (recentViews : List RecentView) : ℚ :=
  if recentViews.length < 3 then 0
  else
    let viewDates := (recentViews.map fun v => v.viewedAt).insertionSort fun a b => a ≤ b
    let timeSpan : ℚ := ((viewDates.getLast?.getD 0 : Int) : ℚ) - ((viewDates.head?.getD 0 : Int) : ℚ)
    if timeSpan = 0 then 1
    else
      let expectedInterval := timeSpan / ((viewDates.length : ℚ) - 1)
      let totalDeviation :=
        ((viewDates.zip viewDates.tail).map fun p =>
          |((p.2 : ℚ) - (p.1 : ℚ)) - expectedInterval|).sum
      let avgDeviation := totalDeviation / ((viewDates.length : ℚ) - 1)
      max 0 (1 - avgDeviation / expectedInterval)

/-- Two views sharing one timestamp: a single-timestamp history shorter than
three entries. -/
def twoEqualTimeViews : List RecentView :=
  [{ viewedAt := 5, categoryId := 0 }, { viewedAt := 5, categoryId := 1 }]

/-- C8 counterexample: a two-view history whose views all share one timestamp
yields consistency score `0`, not `1` — the `recentViews.length < 3` guard
fires before the zero-span check. -/
theorem calculateConsistencyScore_counterexample :
    calculateConsistencyScore twoEqualTimeViews = 0
    ∧ calculateConsistencyScore twoEqualTimeViews ≠ 1 := by decide

/-- C8 (amended): every view history with at least three views all sharing
one timestamp (zero time span) yields `consistencyScore = 1`; histories with
fewer than three views yield `0` instead. -/
theorem calculateConsistencyScore_const_time (recentViews : List RecentView) (t : Int)
    (hlen : 3 ≤ recentViews.length)
    (hconst : ∀ v ∈ recentViews, v.viewedAt = t) :
    calculateConsistencyScore recentViews = 1 := by
  have h3 : ¬ (recentViews.length < 3) := by omega
  rw [calculateConsistencyScore, if_neg h3]
  have hmem : ∀ x ∈ (recentViews.map fun v => v.viewedAt).insertionSort
      (fun a b => a ≤ b), x = t := by
    intro x hx
    rw [List.mem_insertionSort, List.mem_map] at hx
    obtain ⟨v, hv, rfl⟩ := hx
    exact hconst v hv
  have hne : (recentViews.map fun v => v.viewedAt).insertionSort
      (fun a b => a ≤ b) ≠ [] := by
    intro h
    have h0 := congrArg List.length h
    rw [List.length_insertionSort, List.length_map, List.length_nil] at h0
    omega
  have hlast : ((recentViews.map fun v => v.viewedAt).insertionSort
      (fun a b => a ≤ b)).getLast?.getD 0 = t := by
    rw [List.getLast?_eq_getLast _ hne]
    exact hmem _ (List.getLast_mem hne)
  have hhead : ((recentViews.map fun v => v.viewedAt).insertionSort
      (fun a b => a ≤ b)).head?.getD 0 = t := by
    rw [List.head?_eq_head hne]
    exact hmem _ (List.head_mem hne)
  simp [hlast, hhead]

/-- Three views sharing one timestamp. -/
def threeEqualTimeViews : List RecentView :=
  [{ viewedAt := 7, categoryId := 0 }, { viewedAt := 7, categoryId := 1 },
   { viewedAt := 7, categoryId := 2 }]

theorem calculateConsistencyScore_const_time_witness :
    calculateConsistencyScore threeEqualTimeViews = 1 :=
  calculateConsistencyScore_const_time threeEqualTimeViews 7 (by decide) (by decide)

/-- Rank of the boolean `isFeatured` under a descending `orderBy` (`true`
rows come first). -/
def featuredRank (f : Fact) : Nat := if f.isFeatured then 0 else 1

/-- Comparator for `orderBy [{isFeatured: desc}, {likeCount: desc},
{viewCount: desc}]`, the ordering of `getFallbackFacts`. -/
def fallbackLE (a b : Fact) : Bool :=
  decide (featuredRank a < featuredRank b)
  || (featuredRank a == featuredRank b
      && (decide (b.likeCount < a.likeCount)
          || (a.likeCount == b.likeCount && decide (b.viewCount ≤ a.viewCount))))

/-- Comparator for `orderBy [{isFeatured: desc}, {createdAt: desc}]`, the
ordering of `getFactCandidates` and of the scheduler's primary query. -/
def candidateLE (a b : Fact) : Bool :=
  decide (featuredRank a < featuredRank b)
  || (featuredRank a == featuredRank b && decide (b.createdAt ≤ a.createdAt))

/-- Comparator for `orderBy {createdAt: desc}`. -/
def createdDescLE (a b : Fact) : Bool := decide (b.createdAt ≤ a.createdAt)

/-- Comparator for the descending stable sort on `personalizedScore` in
`scoreAndRankFacts`. -/
def scoreDescLE (a b : Fact × ℚ) : Bool := decide (b.2 ≤ a.2)

theorem fallbackLE_trans (a b c : Fact) (h1 : fallbackLE a b) (h2 : fallbackLE b c) :
    fallbackLE a c := by
  simp only [fallbackLE, Bool.or_eq_true, Bool.and_eq_true, decide_eq_true_eq,
    beq_iff_eq] at *
  omega

theorem fallbackLE_total (a b : Fact) : fallbackLE a b || fallbackLE b a := by
  simp only [fallbackLE, Bool.or_eq_true, Bool.and_eq_true, decide_eq_true_eq,
    beq_iff_eq]
  omega

/-- The ordering of `getFallbackFacts` as a propositional relation, used by
the stable sort. -/
def fallbackRel (a b : Fact) : Prop := fallbackLE a b = true

instance : DecidableRel fallbackRel :=
  fun a b => inferInstanceAs (Decidable (fallbackLE a b = true))

instance : IsTrans Fact fallbackRel :=
  ⟨fun a b c h1 h2 => fallbackLE_trans a b c h1 h2⟩

instance : IsTotal Fact fallbackRel :=
  ⟨fun a b => by simpa [fallbackRel] using fallbackLE_total a b⟩

/-- The ordering of `getFactCandidates` and of the scheduler's primary query
as a propositional relation. -/
def candidateRel (a b : Fact) : Prop := candidateLE a b = true

instance : DecidableRel candidateRel :=
  fun a b => inferInstanceAs (Decidable (candidateLE a b = true))

/-- The `createdAt desc` ordering as a propositional relation. -/
def createdDescRel (a b : Fact) : Prop := createdDescLE a b = true

instance : DecidableRel createdDescRel :=
  fun a b => inferInstanceAs (Decidable (createdDescLE a b = true))

/-- The descending-score ordering of `scoreAndRankFacts` as a propositional
relation. -/
def scoreDescRel (a b : Fact × ℚ) : Prop := scoreDescLE a b = true

instance : DecidableRel scoreDescRel :=
  fun a b => inferInstanceAs (Decidable (scoreDescLE a b = true))

/-- The options object of `getPersonalizedFacts`.  `limit` is optional:
`none` models an absent (`undefined`) field, so that the destructuring
default `limit = 10` and the outer catch's `options.limit || 10` — which
disagree at an explicit `limit: 0` — can both be embedded. -/
structure SelectionOptions where
  limit : Option Nat := none
  excludeViewed : Bool := true
  difficultyOverride : Option Difficulty := none
  categoryFilters : List Nat := []
  includeRecommendations : Bool := true

/-- The destructured limit of `getPersonalizedFacts`
(`const { limit = 10, ... } = options`): an absent (`undefined`) limit
becomes 10, while an explicit `0` stays `0`. -/
def SelectionOptions.effectiveLimit (opts : SelectionOptions) : Nat :=
  opts.limit.getD 10

/-- The limit used by the outer catch (`options.limit || 10`): JavaScript
`||` treats both `undefined` and `0` as falsy, so an absent or zero limit
becomes 10 on this path. -/
def SelectionOptions.catchLimit (opts : SelectionOptions) : Nat :=
  match opts.limit with
  | some n => if n = 0 then 10 else n
  | none => 10

/-- Repository-and-collaborator state read by `getPersonalizedFacts`.
`facts` is the `fact` table and `viewedFactIds` the user's viewed rows.
`profile` is the result of `getUserProfile`, which catches its own
repository errors and yields `null` (`none`).  `candidatesOk` models whether
the uncaught repository call inside `getFactCandidates` succeeds;
`scoresOk` and `fallbackOk` model the calls that `calculatePersonalizationScores`
and `getFallbackFacts` catch locally.  `recommendations` is the peers'
liked-facts list of `getRecommendedFacts`; `none` models "no similar users,
or caught repository error", where the source substitutes fallback facts. -/
structure Repo where
  facts : List Fact
  viewedFactIds : List Nat
  profile : Option Profile
  candidatesOk : Bool
  scoresOk : Bool
  fallbackOk : Bool
  recommendations : Option (List Fact)

/-- Embeds `getFallbackFacts(limit)`: eligible facts ordered by
(featured desc, likeCount desc, viewCount desc), first `limit` rows; the
function's own `catch` turns a failing repository call into `[]`. -/
def getFallbackFacts (repo : Repo) (limit : Nat) : List Fact :=
  if repo.fallbackOk then
    ((repo.facts.filter eligibleFact).insertionSort fallbackRel).take limit
  else []

/-- Embeds `getFactCandidates(userId, options)` under `candidatesOk`:
eligibility, the viewed-facts exclusion (added only when the viewed list is
non-empty, as in the source), the difficulty filter, and the category filter
(only when category filters are configured), ordered by (featured desc,
createdAt desc) and truncated to the requested batch. -/
def getFactCandidates (repo : Repo) (excludeViewed : Bool)
    (difficultyOverride : Option Difficulty) (categoryFilters : List Nat)
    (limit : Nat) : List Fact :=
  ((repo.facts.filter fun f =>
      eligibleFact f
      && (if excludeViewed && !repo.viewedFactIds.isEmpty
          then !(repo.viewedFactIds.contains f.id) else true)
      && (match difficultyOverride with
          | some d => f.difficulty == d
          | none => true)
      && (if categoryFilters.isEmpty then true
          else categoryFilters.contains f.categoryId)
    ).insertionSort candidateRel).take limit

/-- Embeds `calculatePersonalizationScores(userId, userProfile)` as the fact
id → score map it produces: every eligible fact is scored with
`calculateFactScore`; a failing repository call is caught and yields the
empty map, so every lookup then falls back to `0` in `scoreAndRankFacts`. -/
def personalizationScores (repo : Repo) (p : Profile) : Nat → ℚ := fun factId =>
  if repo.scoresOk then
    match (repo.facts.filter eligibleFact).find? (fun f => f.id == factId) with
    | some f => calculateFactScore f p
    | none => 0
  else 0

/-- Embeds `scoreAndRankFacts(facts, factScores, userProfile)`: decorate each
fact with `factScores[fact.id] || 0` and sort descending by that score
(JavaScript's `Array.prototype.sort` is stable, as is `mergeSort`, so ties
keep retrieval order). -/
def scoreAndRankFacts (facts : List Fact) (factScores : Nat → ℚ) : List Fact :=
  ((facts.map fun f => (f, factScores f.id)).insertionSort scoreDescRel).map fun q => q.1

/-- Embeds `getRecommendedFacts(userId, userProfile, limit)`.  Peer discovery
and the liked-facts query are abstracted into `repo.recommendations`; the
source returns fallback facts when no similar users exist or when its caught
repository call fails, and otherwise the peers' liked facts truncated to
`limit`. -/
def getRecommendedFacts (repo : Repo) (limit : Nat) : List Fact :=
  match repo.recommendations with
  | some liked => liked.take limit
  | none => getFallbackFacts repo limit

/-- Embeds `getPersonalizedFacts(userId, options)`: fallback on a `null`
profile (at the destructured `limit`); fetch `3 × limit` candidates
(difficulty override or profile difficulty, explicit category filters or
the profile's preferred categories); score, rank and diversify; append
recommendations when short; truncate to `limit`.  The outer `catch` routes
a failure of the uncaught candidate repository call to the fallback path at
`options.limit || 10`. -/
def getPersonalizedFacts (repo : Repo) (opts : SelectionOptions) : List Fact :=
  match repo.profile with
  | none => getFallbackFacts repo opts.effectiveLimit
  | some p =>
    if repo.candidatesOk then
      let candidates := getFactCandidates repo opts.excludeViewed
        (some (opts.difficultyOverride.getD p.difficultyLevel))
        (if opts.categoryFilters.isEmpty then p.preferredCategories
         else opts.categoryFilters)
        (opts.effectiveLimit * 3)
      let ranked := scoreAndRankFacts candidates (personalizationScores repo p)
      let diversified := addDiversityToSelection ranked opts.effectiveLimit
      let withRecs :=
        if opts.includeRecommendations && diversified.length < opts.effectiveLimit then
          diversified
            ++ getRecommendedFacts repo (opts.effectiveLimit - diversified.length)
        else diversified
      withRecs.take opts.effectiveLimit
    else getFallbackFacts repo opts.catchLimit

theorem getFallbackFacts_length_le (repo : Repo) (limit : Nat) :
    (getFallbackFacts repo limit).length ≤ limit := by
  rw [getFallbackFacts]
  by_cases h : repo.fallbackOk
  · simp [h, List.length_take]
  · simp [h]

theorem getFallbackFacts_sorted (repo : Repo) (limit : Nat) :
    (getFallbackFacts repo limit).Pairwise fallbackRel := by
  rw [getFallbackFacts]
  by_cases h : repo.fallbackOk
  · simp only [h, if_true]
    exact List.Pairwise.sublist (List.take_sublist _ _)
      (List.sorted_insertionSort fallbackRel _)
  · simp [h]

theorem getFallbackFacts_eligible (repo : Repo) (limit : Nat) :
    ∀ f ∈ getFallbackFacts repo limit, eligibleFact f = true := by
  intro f hf
  rw [getFallbackFacts] at hf
  by_cases h : repo.fallbackOk
  · rw [if_pos h] at hf
    have hf1 := List.mem_of_mem_take hf
    rw [List.mem_insertionSort] at hf1
    exact List.of_mem_filter hf1
  · rw [if_neg h] at hf
    simp at hf

/-- A concrete profile with neutral fields, for the C1 counterexample. -/
def plainProfile : Profile :=
  { preferredCategories := [], categoryEngagement := fun _ => 0,
    difficultyLevel := .medium, preferredTags := [], personalityScore := 0 }

/-- Repository state for the C1 counterexample: a resolvable profile, a
failing candidate fetch, and six eligible facts. -/
def zeroLimitRepo : Repo :=
  { facts := sameCategoryFacts, viewedFactIds := [],
    profile := some plainProfile, candidatesOk := false, scoresOk := true,
    fallbackOk := true, recommendations := none }

/-- C1 counterexample: with an explicit `limit: 0` and a failing candidate
repository call, the outer catch returns
`getFallbackFacts(options.limit || 10)` — and `0 || 10 === 10` in
JavaScript — so the program returns all six eligible facts: the result has
length 6, not at most `limit = 0`, and differs from the fallback list at
`limit`, which is empty. -/
theorem getPersonalizedFacts_zero_limit_counterexample :
    getPersonalizedFacts zeroLimitRepo { limit := some 0 }
      = getFallbackFacts zeroLimitRepo 10
    ∧ (getPersonalizedFacts zeroLimitRepo { limit := some 0 }).length = 6
    ∧ ¬ ((getPersonalizedFacts zeroLimitRepo { limit := some 0 }).length ≤ 0)
    ∧ getFallbackFacts zeroLimitRepo 0 = [] := by decide

/-- C1 (amended): the personalized selection never throws (it is a total
function of the repository state).  When the profile resolves to `null` it
returns the fallback selection truncated to the destructured `limit`
(10 when absent); when the uncaught candidate repository call fails, the
outer `catch` returns the fallback selection truncated to
`options.limit || 10`, so a zero or absent limit yields up to 10 items on
that path.  In either case the result is eligible items ordered by
(featured desc, like-count desc, view-count desc). -/
theorem getPersonalizedFacts_fallback (repo : Repo) (opts : SelectionOptions)
    (h : repo.profile = none ∨ repo.candidatesOk = false) :
    (repo.profile = none →
      getPersonalizedFacts repo opts = getFallbackFacts repo opts.effectiveLimit
      ∧ (getPersonalizedFacts repo opts).length ≤ opts.effectiveLimit)
    ∧ (repo.profile ≠ none → repo.candidatesOk = false →
      getPersonalizedFacts repo opts = getFallbackFacts repo opts.catchLimit
      ∧ (getPersonalizedFacts repo opts).length ≤ opts.catchLimit)
    ∧ (getPersonalizedFacts repo opts).Pairwise fallbackRel
    ∧ ∀ f ∈ getPersonalizedFacts repo opts, eligibleFact f = true := by
  cases hp : repo.profile with
  | none =>
    have heq : getPersonalizedFacts repo opts
        = getFallbackFacts repo opts.effectiveLimit := by
      rw [getPersonalizedFacts, hp]
    refine ⟨fun _ => ⟨heq, ?_⟩, fun hne => absurd rfl hne, ?_, ?_⟩
    · rw [heq]; exact getFallbackFacts_length_le repo _
    · rw [heq]; exact getFallbackFacts_sorted repo _
    · rw [heq]; exact getFallbackFacts_eligible repo _
  | some p =>
    have hco : repo.candidatesOk = false := by
      rcases h with h | h
      · rw [hp] at h; exact absurd h (by simp)
      · exact h
    have heq : getPersonalizedFacts repo opts
        = getFallbackFacts repo opts.catchLimit := by
      rw [getPersonalizedFacts, hp, hco]
      simp
    refine ⟨fun hnone => ?_, fun _ _ => ⟨heq, ?_⟩, ?_, ?_⟩
    · exact absurd hnone (by simp)
    · rw [heq]; exact getFallbackFacts_length_le repo _
    · rw [heq]; exact getFallbackFacts_sorted repo _
    · rw [heq]; exact getFallbackFacts_eligible repo _

/-- A repository state with no resolvable profile. -/
def noProfileRepo : Repo :=
  { facts := sameCategoryFacts, viewedFactIds := [], profile := none,
    candidatesOk := true, scoresOk := true, fallbackOk := true,
    recommendations := none }

theorem getPersonalizedFacts_fallback_witness :
    (noProfileRepo.profile = none →
      getPersonalizedFacts noProfileRepo {}
        = getFallbackFacts noProfileRepo ({} : SelectionOptions).effectiveLimit
      ∧ (getPersonalizedFacts noProfileRepo {}).length
        ≤ ({} : SelectionOptions).effectiveLimit)
    ∧ (noProfileRepo.profile ≠ none → noProfileRepo.candidatesOk = false →
      getPersonalizedFacts noProfileRepo {}
        = getFallbackFacts noProfileRepo ({} : SelectionOptions).catchLimit
      ∧ (getPersonalizedFacts noProfileRepo {}).length
        ≤ ({} : SelectionOptions).catchLimit)
    ∧ (getPersonalizedFacts noProfileRepo {}).Pairwise fallbackRel
    ∧ ∀ f ∈ getPersonalizedFacts noProfileRepo {}, eligibleFact f = true :=
  getPersonalizedFacts_fallback noProfileRepo {} (Or.inl rfl)

/-- Notification delivery status enum (`PENDING/SENT/DELIVERED/FAILED/CANCELLED`). -/
inductive NStatus where
  | pending
  | sent
  | delivered
  | failed
  | cancelled
deriving DecidableEq, Repr

/-- A row of the `notification` table, restricted to the fields the
distribution and retry jobs read.  `nextRetryAt` and `now` are minutes
(the source sets it via `setMinutes`); `createdDay` is the calendar day of
`createdAt`, which the daily-cap query compares against today's window. -/
structure NotificationRec where
  id : Nat
  userId : Nat
  factId : Option Nat
  status : NStatus
  retryCount : Nat
  nextRetryAt : Nat
  createdDay : Nat
deriving DecidableEq, Repr

/-- A `user` row as selected by `distributeDailyFacts`, restricted to the
fields the per-user step reads.  `difficultyLevel` is optional: the fact
query uses `user.difficultyLevel || 'MEDIUM'`. -/
structure SchedUser where
  id : Nat
  maxNotificationsPerDay : Nat
  difficultyLevel : Option Difficulty
deriving DecidableEq, Repr

/-- Persistent state visible to the scheduler and the notification module:
the `fact` and `notification` tables plus the per-user rows the queries
read (`notificationsEnabled` flag, enabled `userCategory` ids, viewed
`userFact` ids) and the id sequence feeding record creation. -/
structure SchedState where
  facts : List Fact
  notifications : List NotificationRec
  notificationsEnabled : Nat → Bool
  userCategories : Nat → List Nat
  seenFactIds : Nat → List Nat
  nextNotificationId : Nat

/-- The `whereClause` of the scheduler's `getPersonalizedFact` before the
unseen exclusion is added: eligibility, the user's difficulty
(`user.difficultyLevel || 'MEDIUM'`), and — when the user has enabled
categories — the category restriction. -/
def schedBaseFilter (st : SchedState) (user : SchedUser) (f : Fact) : Bool :=
  eligibleFact f
  && f.difficulty == user.difficultyLevel.getD .medium
  && (if (st.userCategories user.id).isEmpty then true
      else (st.userCategories user.id).contains f.categoryId)

/-- The primary candidate query of the scheduler's `getPersonalizedFact`:
the base clause plus the unseen exclusion (added only when the user has
seen facts), ordered by (featured desc, createdAt desc), first 10 rows. -/
def schedPrimaryCandidates (st : SchedState) (user : SchedUser) : List Fact :=
  ((st.facts.filter fun f =>
      schedBaseFilter st user f
      && (if (st.seenFactIds user.id).isEmpty then true
          else !((st.seenFactIds user.id).contains f.id))
    ).insertionSort candidateRel).take 10

/-- The fallback query of the scheduler's `getPersonalizedFact`
(`delete whereClause.id`): only the unseen exclusion is removed — the
difficulty and category clauses remain — ordered by createdAt desc, first 5
rows. -/
def schedFallbackCandidates (st : SchedState) (user : SchedUser) : List Fact :=
  ((st.facts.filter fun f => schedBaseFilter st user f).insertionSort createdDescRel).take 5

/-- Embeds `SchedulerService.getPersonalizedFact(user)`: a random candidate
of the primary query; when that query is empty, a random candidate of the
fallback query; `null` when both are empty.  `rand` models the
`Math.random()` draw: `Math.floor(random * length)` is an index below the
length, and indexing an empty array yields `undefined || null` (`none`). -/
def getPersonalizedFact (st : SchedState) (user : SchedUser) (rand : Nat) :
    Option Fact :=
  let primary := schedPrimaryCandidates st user
  if primary.isEmpty then
    let fallback := schedFallbackCandidates st user
    fallback.get? (rand % fallback.length)
  else
    primary.get? (rand % primary.length)

/-- Result shape of the notification send functions. -/
structure SendResult where
  success : Bool
  error : Option String
deriving DecidableEq, Repr

/-- Embeds `sendDailyFactNotification(userId, fact)` for a given device-token
list.  The branch after the token guard creates a PENDING notification
record, attempts delivery (`senderDelivers` abstracts the FCM transport
outcome) and updates the record's status. -/
def sendDailyFactNotificationWith (tokens : List String) (st : SchedState)
    (today : Nat) (senderDelivers : Bool) (userId : Nat) (fact : Fact) :
    SendResult × SchedState :=
  if tokens.isEmpty then
    ({ success := false, error := some ("No FCM tokens") }, st)
  else
    let created : NotificationRec :=
      { id := st.nextNotificationId, userId := userId, factId := some fact.id,
        status := .pending, retryCount := 0, nextRetryAt := 0,
        createdDay := today }
    let st1 : SchedState :=
      { st with notifications := st.notifications ++ [created],
                nextNotificationId := st.nextNotificationId + 1 }
    let newStatus := if senderDelivers then NStatus.sent else NStatus.failed
    let st2 : SchedState :=
      { st1 with notifications := st1.notifications.map fun n =>
          if n.id == created.id then { n with status := newStatus } else n }
    ({ success := senderDelivers, error := none }, st2)

/-- The call as wired in the source: the token list is the constant empty
array (`const fcmTokens = [];` — the real device-token table is absent). -/
def sendDailyFactNotification (st : SchedState) (today : Nat)
    (senderDelivers : Bool) (userId : Nat) (fact : Fact) :
    SendResult × SchedState :=
  sendDailyFactNotificationWith [] st today senderDelivers userId fact

/-- C10: when the FCM token list is empty, `sendDailyFactNotification`
returns a failure result (`success: false`) before any write occurs — no
notification record is created and the persistent state is unchanged — and
since the token list in the source is the constant empty array, this early
exit is taken on every call. -/
theorem sendDailyFactNotification_no_tokens (tokens : List String)
    (st : SchedState) (today : Nat) (senderDelivers : Bool) (userId : Nat)
    (fact : Fact) (htok : tokens = []) :
    sendDailyFactNotificationWith tokens st today senderDelivers userId fact
      = ({ success := false, error := some ("No FCM tokens") }, st)
    ∧ sendDailyFactNotification st today senderDelivers userId fact
      = ({ success := false, error := some ("No FCM tokens") }, st)
    ∧ (sendDailyFactNotification st today senderDelivers userId fact).2.notifications
      = st.notifications := by
  subst htok
  exact ⟨rfl, rfl, rfl⟩

/-- A minimal concrete scheduler state. -/
def emptySchedState : SchedState :=
  { facts := [], notifications := [], notificationsEnabled := fun _ => true,
    userCategories := fun _ => [], seenFactIds := fun _ => [],
    nextNotificationId := 0 }

theorem sendDailyFactNotification_no_tokens_witness :
    sendDailyFactNotificationWith [] emptySchedState 0 true 1
        (sameCategoryFacts.headI)
      = ({ success := false, error := some ("No FCM tokens") }, emptySchedState)
    ∧ sendDailyFactNotification emptySchedState 0 true 1 (sameCategoryFacts.headI)
      = ({ success := false, error := some ("No FCM tokens") }, emptySchedState)
    ∧ (sendDailyFactNotification emptySchedState 0 true 1
        (sameCategoryFacts.headI)).2.notifications
      = emptySchedState.notifications :=
  sendDailyFactNotification_no_tokens [] emptySchedState 0 true 1
    (sameCategoryFacts.headI) rfl

/-- Notification statuses counted by the daily-cap check
(`status: { in: ['SENT', 'DELIVERED'] }`). -/
def sentOrDelivered (s : NStatus) : Bool := s == .sent || s == .delivered

/-- The daily-cap count of `sendDailyFactToUser`: notifications of the user
created today whose status is SENT or DELIVERED. -/
def todaysNotificationCount (st : SchedState) (today : Nat) (userId : Nat) : Nat :=
  (st.notifications.filter fun n =>
    n.userId == userId && n.createdDay == today && sentOrDelivered n.status).length

/-- Embeds `sendDailyFactToUser(user)` as a transition on the persistent
state: return unchanged when the daily cap is reached, return unchanged when
no suitable fact is found, otherwise delegate to
`sendDailyFactNotification`. -/
def sendDailyFactToUser (st : SchedState) (today : Nat) (senderDelivers : Bool)
    (rand : Nat) (user : SchedUser) : SchedState :=
  if user.maxNotificationsPerDay ≤ todaysNotificationCount st today user.id then
    st
  else
    match getPersonalizedFact st user rand with
    | none => st
    | some fact => (sendDailyFactNotification st today senderDelivers user.id fact).2

/-- C4: for a user who has already received at least
`maxNotificationsPerDay` sent/delivered notifications today, running the
per-user distribution step again the same day creates no additional
notification record — the daily-count check returns before any write, so
the step is a no-op and re-triggered or overlapping ticks cannot
over-deliver beyond the cap. -/
theorem sendDailyFactToUser_capped_noop (st : SchedState) (today : Nat)
    (senderDelivers : Bool) (rand : Nat) (user : SchedUser)
    (hcap : user.maxNotificationsPerDay ≤ todaysNotificationCount st today user.id) :
    sendDailyFactToUser st today senderDelivers rand user = st
    ∧ (sendDailyFactToUser st today senderDelivers rand user).notifications
      = st.notifications := by
  rw [sendDailyFactToUser, if_pos hcap]
  exact ⟨rfl, rfl⟩

/-- A state holding one SENT notification created today for user 1. -/
def cappedSchedState : SchedState :=
  { facts := sameCategoryFacts,
    notifications := [{ id := 0, userId := 1, factId := some 1, status := .sent,
                        retryCount := 0, nextRetryAt := 0, createdDay := 3 }],
    notificationsEnabled := fun _ => true,
    userCategories := fun _ => [], seenFactIds := fun _ => [],
    nextNotificationId := 1 }

/-- User 1 with a daily cap of one notification. -/
def cappedUser : SchedUser :=
  { id := 1, maxNotificationsPerDay := 1, difficultyLevel := some .medium }

theorem sendDailyFactToUser_capped_noop_witness :
    sendDailyFactToUser cappedSchedState 3 true 0 cappedUser = cappedSchedState
    ∧ (sendDailyFactToUser cappedSchedState 3 true 0 cappedUser).notifications
      = cappedSchedState.notifications :=
  sendDailyFactToUser_capped_noop cappedSchedState 3 true 0 cappedUser (by decide)

/-- The selection of the retry job (`retryFailedNotifications` in the
notification module): records with status FAILED, `retryCount < 3` and
`nextRetryAt ≤ now`, first 50 rows (`take: 50`). -/
def retrySelection (st : SchedState) (now : Nat) : List NotificationRec :=
  (st.notifications.filter fun n =>
    n.status == .failed && decide (n.retryCount < 3) && decide (n.nextRetryAt ≤ now)).take 50

/-- Per-record action of the retry job: a record whose owner has disabled
notifications is marked CANCELLED; otherwise `retryCount` is incremented and
`nextRetryAt` moves `Math.pow(2, retryCount + 1) * 5` minutes ahead — the
exponent reads the retry count before the increment, so the delay equals
`5 · 2^(new retryCount)` minutes. -/
def retryStep (enabled : Bool) (now : Nat) (n : NotificationRec) : NotificationRec :=
  if !enabled then { n with status := .cancelled }
  else { n with retryCount := n.retryCount + 1,
                nextRetryAt := now + 2 ^ (n.retryCount + 1) * 5 }

/-- Embeds `retryFailedNotifications()`: apply `retryStep` to each selected
record, leaving every other record untouched. -/
def retryFailedNotifications (st : SchedState) (now : Nat) : SchedState :=
  { st with notifications := st.notifications.map fun n =>
      if (retrySelection st now).any (fun m => m.id == n.id) then
        retryStep (st.notificationsEnabled n.userId) now n
      else n }

/-- C5: the retry job selects only records with status FAILED,
`retryCount < 3` and `nextRetryAt ≤ now` — so a record whose retry count
reached 3 is never selected again — and for each selected record it either
marks it CANCELLED when the owning user disabled notifications, or
increments `retryCount` and sets `nextRetryAt = now + 5·2^(new retryCount)`
minutes, making the successive backoff deltas 10, 20, 40 minutes — strictly
increasing. -/
theorem retryFailedNotifications_spec (st : SchedState) (now : Nat)
    (n : NotificationRec) (hn : n ∈ retrySelection st now) :
    (n.status = .failed ∧ n.retryCount < 3 ∧ n.nextRetryAt ≤ now)
    ∧ (∀ m : NotificationRec, 3 ≤ m.retryCount → m ∉ retrySelection st now)
    ∧ retryStep false now n = { n with status := .cancelled }
    ∧ (retryStep true now n).retryCount = n.retryCount + 1
    ∧ (retryStep true now n).nextRetryAt = now + 5 * 2 ^ (n.retryCount + 1)
    ∧ (retryStep true now { n with retryCount := 0 }).nextRetryAt - now = 10
    ∧ (retryStep true now { n with retryCount := 1 }).nextRetryAt - now = 20
    ∧ (retryStep true now { n with retryCount := 2 }).nextRetryAt - now = 40
    ∧ ((10 : Nat) < 20 ∧ (20 : Nat) < 40) := by
  have hmem : ∀ m : NotificationRec, m ∈ retrySelection st now →
      m.status = NStatus.failed ∧ m.retryCount < 3 ∧ m.nextRetryAt ≤ now := by
    intro m hm
    have hm2 := List.mem_of_mem_take hm
    have hprop := List.of_mem_filter hm2
    simpa [Bool.and_eq_true, decide_eq_true_eq, beq_iff_eq, and_assoc]
      using hprop
  refine ⟨hmem n hn, ?_, ?_, ?_, ?_, ?_, ?_, ?_, by omega⟩
  · intro m hm3 hmsel
    have := (hmem m hmsel).2.1
    omega
  · simp [retryStep]
  · simp [retryStep]
  · simp [retryStep]; ring
  · simp [retryStep]
  · simp [retryStep]
  · simp [retryStep]

/-- A FAILED notification with retry count 0, eligible for retry at time 100. -/
def failedRec : NotificationRec :=
  { id := 9, userId := 1, factId := none, status := .failed,
    retryCount := 0, nextRetryAt := 50, createdDay := 0 }

/-- A state with a single FAILED notification eligible for retry. -/
def retrySchedState : SchedState :=
  { facts := [], notifications := [failedRec],
    notificationsEnabled := fun _ => true,
    userCategories := fun _ => [], seenFactIds := fun _ => [],
    nextNotificationId := 10 }

theorem retryFailedNotifications_spec_witness :
    (failedRec.status = NStatus.failed ∧ failedRec.retryCount < 3
      ∧ failedRec.nextRetryAt ≤ 100)
    ∧ (∀ m : NotificationRec, 3 ≤ m.retryCount →
        m ∉ retrySelection retrySchedState 100)
    ∧ retryStep false 100 failedRec = { failedRec with status := .cancelled }
    ∧ (retryStep true 100 failedRec).retryCount = failedRec.retryCount + 1
    ∧ (retryStep true 100 failedRec).nextRetryAt
      = 100 + 5 * 2 ^ (failedRec.retryCount + 1)
    ∧ (retryStep true 100 { failedRec with retryCount := 0 }).nextRetryAt - 100 = 10
    ∧ (retryStep true 100 { failedRec with retryCount := 1 }).nextRetryAt - 100 = 20
    ∧ (retryStep true 100 { failedRec with retryCount := 2 }).nextRetryAt - 100 = 40
    ∧ ((10 : Nat) < 20 ∧ (20 : Nat) < 40) :=
  retryFailedNotifications_spec retrySchedState 100 failedRec (by decide)

/-- A fact the C6 user has already seen, in the single enabled category. -/
def seenFact : Fact :=
  { id := 1, categoryId := 1, difficulty := .medium, tags := [],
    ageInDays := 0, createdAt := 0, viewCount := 0, likeCount := 0,
    shareCount := 0, isFeatured := false, isApproved := true,
    isActive := true, published := true }

/-- An unseen fact of matching difficulty outside the enabled categories. -/
def otherCategoryFact : Fact :=
  { id := 2, categoryId := 2, difficulty := .medium, tags := [],
    ageInDays := 0, createdAt := 0, viewCount := 0, likeCount := 0,
    shareCount := 0, isFeatured := false, isApproved := true,
    isActive := true, published := true }

/-- State for the C6 scenario: user 1 enabled only category 1 and has seen
the one fact of that category; a second matching-difficulty fact lives in
category 2. -/
def c6State : SchedState :=
  { facts := [seenFact, otherCategoryFact], notifications := [],
    notificationsEnabled := fun _ => true,
    userCategories := fun u => if u == 1 then [1] else [],
    seenFactIds := fun u => if u == 1 then [1] else [],
    nextNotificationId := 0 }

/-- The C6 user. -/
def c6User : SchedUser :=
  { id := 1, maxNotificationsPerDay := 1, difficultyLevel := some .medium }

/-- C6 counterexample: the primary query is empty, yet the fallback of the
scheduler's `getPersonalizedFact` still excludes the matching-difficulty
fact of a non-enabled category: `delete whereClause.id` removes only the
"unseen" exclusion and keeps the category restriction, so the claim that
the fallback chooses among any items of matching difficulty is false — the
code can only return the already-seen in-category fact. -/
theorem schedFallback_keeps_category_counterexample :
    schedPrimaryCandidates c6State c6User = []
    ∧ otherCategoryFact.difficulty = c6User.difficultyLevel.getD .medium
    ∧ eligibleFact otherCategoryFact = true
    ∧ otherCategoryFact ∈ c6State.facts
    ∧ otherCategoryFact ∉ schedFallbackCandidates c6State c6User
    ∧ getPersonalizedFact c6State c6User 0 = some seenFact := by decide

/-- C6 (amended): when the primary query (unseen items in enabled categories
at the user's difficulty) returns no items, the fallback query of the
scheduler's `getPersonalizedFact` drops only the "unseen" exclusion: any
returned fact is still eligible, still matches the user's difficulty
(default MEDIUM), and — whenever the user has enabled categories — still
belongs to one of them; the random choice ranges over (at most 5 of) those
items only. -/
theorem getPersonalizedFact_fallback_keeps_filters (st : SchedState)
    (user : SchedUser) (rand : Nat) (f : Fact)
    (hempty : schedPrimaryCandidates st user = [])
    (hres : getPersonalizedFact st user rand = some f) :
    eligibleFact f = true
    ∧ f.difficulty = user.difficultyLevel.getD .medium
    ∧ (st.userCategories user.id = []
       ∨ f.categoryId ∈ st.userCategories user.id)
    ∧ f ∈ schedFallbackCandidates st user := by
  rw [getPersonalizedFact] at hres
  rw [hempty] at hres
  simp only [List.isEmpty_nil, if_true] at hres
  have hmemfb : f ∈ schedFallbackCandidates st user := List.get?_mem hres
  have hfilter : schedBaseFilter st user f = true := by
    have h1 := List.mem_of_mem_take hmemfb
    rw [List.mem_insertionSort] at h1
    exact List.of_mem_filter h1
  rw [schedBaseFilter, Bool.and_eq_true, Bool.and_eq_true] at hfilter
  obtain ⟨⟨helig, hdiff⟩, hcat⟩ := hfilter
  refine ⟨helig, by simpa using hdiff, ?_, hmemfb⟩
  by_cases hc : st.userCategories user.id = []
  · exact Or.inl hc
  · right
    have : (st.userCategories user.id).isEmpty = false := by
      simpa [List.isEmpty_iff] using hc
    rw [if_neg (by simp [this])] at hcat
    simpa using hcat

theorem getPersonalizedFact_fallback_keeps_filters_witness :
    eligibleFact seenFact = true
    ∧ seenFact.difficulty = c6User.difficultyLevel.getD .medium
    ∧ (c6State.userCategories c6User.id = []
       ∨ seenFact.categoryId ∈ c6State.userCategories c6User.id)
    ∧ seenFact ∈ schedFallbackCandidates c6State c6User :=
  getPersonalizedFact_fallback_keeps_filters c6State c6User 0 seenFact
    (by decide) (by decide)

end DYK
